import Mathlib

/-!
Verification of the invoice-generator pipeline (`src/app/main.py`).

The development shallowly embeds the Python values handled by the pipeline
as the inductive type `PyVal`, and translates the two core pieces of logic:

* `serializeField` — the field normalizer `serialize_field` defined inside
  `analyze_invoice` (main.py lines 89-129);
* the rendering helpers of `generate_pdf` (main.py lines 160-224):
  envelope `unwrap`, `deriveCurrency`, and `deriveFilename`.

Python exceptions are modelled with `Except String`; a `.error` result
stands for a raised exception, `.ok` for a normal return.
-/

set_option autoImplicit false

namespace InvoiceGen

/--
A Python value as the pipeline can see one.  JSON-decoded request bodies and
dict-like Azure SDK field objects are both `dict` (an association list with
distinct keys; Python dicts preserve insertion order, which the list order
models).  `obj` models a non-dict typed SDK field object, carrying the four
attributes probed by the fallback branch of `serialize_field`
(`value_string`, `value_number`, `value_date`, `value`); an attribute that is
absent or `None` is modelled as `PyVal.none`, matching
`getattr(field, attr, None)`.  `num` covers Python `int`/`float`, which the
pipeline never computes with — numeric values only pass through.
-/
inductive PyVal where
  | none
  | bool (b : Bool)
  | num (n : Int)
  | str (s : String)
  | list (items : List PyVal)
  | dict (entries : List (String × PyVal))
  | obj (value_string value_number value_date value : PyVal)

/-- Key lookup in a Python dict: `key in d` succeeds iff this is `some`,
and `d[key]` / `d.get(key)` return the stored value.  Keys of a Python dict
are distinct, so first-match lookup is faithful. -/
def lookupKey : List (String × PyVal) → String → Option PyVal
  | [], _ => Option.none
  | (k, v) :: rest, key => if k = key then some v else lookupKey rest key

/-- Python `str()` of a value, as used by f-string interpolation and the
`str(val)` coercion in `serialize_field`'s fallback branch. -/
def pyStr : PyVal → String
  | .none => "None"
  | .bool true => "True"
  | .bool false => "False"
  | .num n => toString n
  | .str s => s
  | .list _ => "[...]"
  | .dict _ => "\x7b...\x7d"
  | .obj _ _ _ _ => "<object>"

/--
The coercion applied by the fallback branch of `serialize_field` to the first
non-`None` attribute value `val`:
`if isinstance(val, (str, int, float, bool)): return val` else `return str(val)`.
`PyVal.none` is returned unchanged because the loop skips `None` attributes.
-/
def coerceVal : PyVal → PyVal
  | .none => .none
  | .str s => .str s
  | .num n => .num n
  | .bool b => .bool b
  | v => .str (pyStr v)

/-- The first value in the list that is not Python `None` (models the
`for attr in [...]` loop with its `if val is not None` guard). -/
def firstNonNone : List PyVal → PyVal
  | [] => .none
  | .none :: rest => firstNonNone rest
  | v :: _ => v

theorem lookupKey_mem {es : List (String × PyVal)} {key : String} {v : PyVal}
    (h : lookupKey es key = some v) : (key, v) ∈ es := by
  induction es with
  | nil => simp [lookupKey] at h
  | cons kv rest ih =>
    obtain ⟨k, w⟩ := kv
    by_cases hk : k = key
    · subst hk
      simp [lookupKey] at h
      subst h
      exact List.mem_cons_self _ _
    · simp [lookupKey, hk] at h
      exact List.mem_cons_of_mem _ (ih h)

theorem sizeOf_lt_of_mem {es : List (String × PyVal)} {key : String} {v : PyVal}
    (h : (key, v) ∈ es) : sizeOf v < sizeOf es := by
  induction es with
  | nil => simp at h
  | cons kv rest ih =>
    rcases List.mem_cons.mp h with h1 | h2
    · subst h1
      simp
      omega
    · have := ih h2
      simp
      omega

theorem lookupKey_sizeOf_lt {es : List (String × PyVal)} {key : String} {v : PyVal}
    (h : lookupKey es key = some v) : sizeOf v < sizeOf es :=
  sizeOf_lt_of_mem (lookupKey_mem h)

mutual

/--
Translation of `serialize_field` (main.py lines 89-129).

* `field is None` → `None`.
* dict-like (`hasattr(field, "get") or isinstance(field, dict)`):
  probe `valueString`, `valueNumber`, `valueDate` in order and return the
  stored value as-is; else recurse through `valueObject` (requires a dict:
  `obj.items()` raises `AttributeError` otherwise) or `valueArray`
  (a Python `for item in x` over a string yields its characters and over a
  dict yields its keys — `serialize_field` of a bare string is `None`, so
  those cases yield a list of `None`; iterating any other non-list raises
  `TypeError`); else return `None`.
* any other object: probe attributes `value_string`, `value_number`,
  `value_date`, `value` for the first non-`None` value and coerce it
  (bare `bool`/`num`/`str`/`list` inputs have none of these attributes,
  so they normalize to `None`).
-/
def serializeField : PyVal → Except String PyVal
  | .none => .ok .none
  | .dict entries =>
    match lookupKey entries "valueString" with
    | some v => .ok v
    | Option.none =>
      match lookupKey entries "valueNumber" with
      | some v => .ok v
      | Option.none =>
        match lookupKey entries "valueDate" with
        | some v => .ok v
        | Option.none =>
          match hObj : lookupKey entries "valueObject" with
          | some (.dict m) => Except.map PyVal.dict (serializeMembers m)
          | some _ => .error "AttributeError: object has no attribute items"
          | Option.none =>
            match hArr : lookupKey entries "valueArray" with
            | some (.list xs) => Except.map PyVal.list (serializeItems xs)
            | some (.str s) => .ok (.list (s.data.map fun _ => PyVal.none))
            | some (.dict m) => .ok (.list (m.map fun _ => PyVal.none))
            | some _ => .error "TypeError: object is not iterable"
            | Option.none => .ok .none
  | .obj vs vn vd v => .ok (coerceVal (firstNonNone [vs, vn, vd, v]))
  | .bool _ => .ok .none
  | .num _ => .ok .none
  | .str _ => .ok .none
  | .list _ => .ok .none
termination_by v => sizeOf v
decreasing_by
  · have := lookupKey_sizeOf_lt hObj
    simp at this ⊢
    omega
  · have := lookupKey_sizeOf_lt hArr
    simp at this ⊢
    omega

/-- The dict comprehension `{k: serialize_field(v) for k, v in obj.items()}`:
normalize every member value, keys preserved; an exception inside
propagates. -/
def serializeMembers : List (String × PyVal) → Except String (List (String × PyVal))
  | [] => .ok []
  | (k, v) :: rest => do
    let r ← serializeField v
    let rs ← serializeMembers rest
    .ok ((k, r) :: rs)
termination_by l => sizeOf l
decreasing_by
  all_goals simp
  all_goals omega

/-- The list comprehension `[serialize_field(item) for item in field["valueArray"]]`:
normalize every item in order; an exception inside propagates. -/
def serializeItems : List PyVal → Except String (List PyVal)
  | [] => .ok []
  | v :: rest => do
    let r ← serializeField v
    let rs ← serializeItems rest
    .ok (r :: rs)
termination_by l => sizeOf l
decreasing_by
  all_goals simp
  all_goals omega

end

/--
The envelope auto-unwrap step of `generate_pdf` (main.py lines 172-173):
`if "data" in invoice_data and "status" in invoice_data: invoice_data = invoice_data["data"]`.
The endpoint receives a dict; on any other value the step is vacuous.
-/
def unwrap : PyVal → PyVal
  | .dict es =>
    match lookupKey es "data", lookupKey es "status" with
    | some d, some _ => d
    | _, _ => .dict es
  | v => v

/-- A mapping that looks like a full pipeline response: it has both a
`status` and a `data` key (the unwrap condition of main.py line 172). -/
def isEnvelope : PyVal → Bool
  | .dict es => (lookupKey es "data").isSome && (lookupKey es "status").isSome
  | _ => false

/-- Python `isinstance(v, dict)`. -/
def isDict : PyVal → Bool
  | .dict _ => true
  | _ => false

/--
Currency derivation of `generate_pdf` (main.py lines 176-179):
`currency = ""`, then if `invoice_data.get("TotalAmount")` is a dict,
`currency = total_amount.get("CurrencyCode", "")`.
-/
def deriveCurrency (invoice_data : List (String × PyVal)) : PyVal :=
  match lookupKey invoice_data "TotalAmount" with
  | some (.dict m) => (lookupKey m "CurrencyCode").getD (.str "")
  | _ => .str ""

/--
Filename derivation of `generate_pdf` (main.py lines 212-213):
`invoice_id = invoice_data.get("InvoiceId", "invoice")` followed by the
f-string `f"invoice_{invoice_id}.pdf"`, whose interpolation applies
Python `str()` to the value.
-/
def deriveFilename (invoice_data : List (String × PyVal)) : String :=
  "invoice_" ++ pyStr ((lookupKey invoice_data "InvoiceId").getD (.str "invoice")) ++ ".pdf"

/--
How a call to the extraction collaborator can fail inside `analyze_invoice`
(main.py lines 153-156): an `azure.core.exceptions.HttpResponseError` — the
SDK error for a completed upstream HTTP response, which carries that
response's status code and message — or any other exception.
-/
inductive AnalyzeFailure where
  | httpResponseError (statusCode : Nat) (message : String)
  | genericError (message : String)

/-- The HTTP status code of the `HTTPException` that `analyze_invoice`
re-raises for a failure (main.py lines 153-156): `e.status_code` for an
`HttpResponseError`, `500` for any other exception. -/
def analyzeErrorStatus : AnalyzeFailure → Nat
  | .httpResponseError s _ => s
  | .genericError _ => 500

/-- The detail string of that `HTTPException` (main.py lines 154, 156). -/
def analyzeErrorDetail : AnalyzeFailure → String
  | .httpResponseError _ m => "Azure Error: " ++ m
  | .genericError m => "Server Error: " ++ m

mutual

/--
Written from the spec's words (§3 CanonicalValue): a canonical JSON value is
`null`, a string, a number, a string-keyed mapping of canonical values, or an
ordered sequence of canonical values — in particular not a boolean and not a
typed SDK object.
-/
def isCanonical : PyVal → Bool
  | .none => true
  | .str _ => true
  | .num _ => true
  | .dict es => isCanonicalEntries es
  | .list xs => isCanonicalList xs
  | .bool _ => false
  | .obj _ _ _ _ => false
termination_by v => sizeOf v

/-- Every value of the mapping is canonical. -/
def isCanonicalEntries : List (String × PyVal) → Bool
  | [] => true
  | (_, v) :: rest => isCanonical v && isCanonicalEntries rest
termination_by l => sizeOf l
decreasing_by
  all_goals simp
  all_goals omega

/-- Every element of the sequence is canonical. -/
def isCanonicalList : List PyVal → Bool
  | [] => true
  | v :: rest => isCanonical v && isCanonicalList rest
termination_by l => sizeOf l
decreasing_by
  all_goals simp
  all_goals omega

end

mutual

/--
A well-formed ExtractedField in the dict encoding (spec §3): any mapping is
allowed, provided a `valueObject` entry holds a mapping of well-formed
fields and a `valueArray` entry holds a sequence of well-formed fields.
Partially-populated variants (no value key at all) and malformed ones
(several value keys at once, extra unrecognized keys) are included, and any
non-dict value (typed SDK objects, bare primitives) is well-formed.
-/
def isWellFormedField : PyVal → Bool
  | .dict es => isWellFormedEntries es
  | _ => true
termination_by v => sizeOf v

/-- Entry-wise well-formedness of one field's dict. -/
def isWellFormedEntries : List (String × PyVal) → Bool
  | [] => true
  | (k, v) :: rest => wfEntry k v && isWellFormedEntries rest
termination_by l => sizeOf l
decreasing_by
  all_goals simp
  all_goals omega

/-- The shape constraint a single entry must satisfy. -/
def wfEntry (k : String) (v : PyVal) : Bool :=
  if k = "valueObject" then
    match v with
    | .dict m => isWellFormedMembers m
    | _ => false
  else if k = "valueArray" then
    match v with
    | .list xs => isWellFormedList xs
    | _ => false
  else true
termination_by sizeOf v
decreasing_by
  all_goals simp
  all_goals omega

/-- Every member value of a `valueObject` mapping is a well-formed field. -/
def isWellFormedMembers : List (String × PyVal) → Bool
  | [] => true
  | (_, v) :: rest => isWellFormedField v && isWellFormedMembers rest
termination_by l => sizeOf l
decreasing_by
  all_goals simp
  all_goals omega

/-- Every item of a `valueArray` sequence is a well-formed field. -/
def isWellFormedList : List PyVal → Bool
  | [] => true
  | v :: rest => isWellFormedField v && isWellFormedList rest
termination_by l => sizeOf l
decreasing_by
  all_goals simp
  all_goals omega

end

/-- `v` is not a Python boolean. -/
def notBool : PyVal → Bool
  | .bool _ => false
  | _ => true

mutual

/--
A well-typed ExtractedField: a well-formed field whose primitive slots hold
values of the advertised primitive types — `valueString`/`valueDate` hold
strings, `valueNumber` holds a number — and whose fallback attributes, if
any, are not booleans.  This is the dict/attribute encoding of the spec's
ExtractedField data model (§3) with `Primitive(kind, value)` respecting its
kind.
-/
def isTypedField : PyVal → Bool
  | .dict es => isTypedEntries es
  | .obj vs vn vd v => notBool vs && notBool vn && notBool vd && notBool v
  | _ => true
termination_by v => sizeOf v

/-- Entry-wise well-typedness of one field's dict. -/
def isTypedEntries : List (String × PyVal) → Bool
  | [] => true
  | (k, v) :: rest => typedEntry k v && isTypedEntries rest
termination_by l => sizeOf l
decreasing_by
  all_goals simp
  all_goals omega

/-- The typing constraint a single entry must satisfy. -/
def typedEntry (k : String) (v : PyVal) : Bool :=
  if k = "valueString" then
    match v with
    | .str _ => true
    | _ => false
  else if k = "valueNumber" then
    match v with
    | .num _ => true
    | _ => false
  else if k = "valueDate" then
    match v with
    | .str _ => true
    | _ => false
  else if k = "valueObject" then
    match v with
    | .dict m => isTypedMembers m
    | _ => false
  else if k = "valueArray" then
    match v with
    | .list xs => isTypedList xs
    | _ => false
  else true
termination_by sizeOf v
decreasing_by
  all_goals simp
  all_goals omega

/-- Every member value of a `valueObject` mapping is a well-typed field. -/
def isTypedMembers : List (String × PyVal) → Bool
  | [] => true
  | (_, v) :: rest => isTypedField v && isTypedMembers rest
termination_by l => sizeOf l
decreasing_by
  all_goals simp
  all_goals omega

/-- Every item of a `valueArray` sequence is a well-typed field. -/
def isTypedList : List PyVal → Bool
  | [] => true
  | v :: rest => isTypedField v && isTypedList rest
termination_by l => sizeOf l
decreasing_by
  all_goals simp
  all_goals omega

end

/-! ### Supporting lemmas -/

theorem serializeField_dict_hasString {es : List (String × PyVal)} {v : PyVal}
    (h1 : lookupKey es "valueString" = some v) :
    serializeField (PyVal.dict es) = Except.ok v := by
  simp [serializeField, h1]

theorem serializeField_dict_hasNumber {es : List (String × PyVal)} {v : PyVal}
    (h1 : lookupKey es "valueString" = Option.none)
    (h2 : lookupKey es "valueNumber" = some v) :
    serializeField (PyVal.dict es) = Except.ok v := by
  simp [serializeField, h1, h2]

theorem serializeField_dict_hasDate {es : List (String × PyVal)} {v : PyVal}
    (h1 : lookupKey es "valueString" = Option.none)
    (h2 : lookupKey es "valueNumber" = Option.none)
    (h3 : lookupKey es "valueDate" = some v) :
    serializeField (PyVal.dict es) = Except.ok v := by
  simp [serializeField, h1, h2, h3]

theorem serializeField_dict_hasObject {es m : List (String × PyVal)}
    (h1 : lookupKey es "valueString" = Option.none)
    (h2 : lookupKey es "valueNumber" = Option.none)
    (h3 : lookupKey es "valueDate" = Option.none)
    (h4 : lookupKey es "valueObject" = some (PyVal.dict m)) :
    serializeField (PyVal.dict es) = Except.map PyVal.dict (serializeMembers m) := by
  simp only [serializeField, h1, h2, h3]
  split
  · next m2 e =>
    rw [h4] at e
    simp at e
    subst e
    rfl
  · next v2 e e2 =>
    rw [h4] at e2
    simp at e2
    exact (e _ e2.symm).elim
  · next e =>
    rw [h4] at e
    simp at e

theorem serializeField_dict_hasArray {es : List (String × PyVal)} {xs : List PyVal}
    (h1 : lookupKey es "valueString" = Option.none)
    (h2 : lookupKey es "valueNumber" = Option.none)
    (h3 : lookupKey es "valueDate" = Option.none)
    (h4 : lookupKey es "valueObject" = Option.none)
    (h5 : lookupKey es "valueArray" = some (PyVal.list xs)) :
    serializeField (PyVal.dict es) = Except.map PyVal.list (serializeItems xs) := by
  simp only [serializeField, h1, h2, h3]
  split
  · next m2 e =>
    rw [h4] at e
    simp at e
  · next v2 e e2 =>
    rw [h4] at e2
    simp at e2
  · next e =>
    split <;> simp_all

theorem serializeField_dict_noValueKey {es : List (String × PyVal)}
    (h1 : lookupKey es "valueString" = Option.none)
    (h2 : lookupKey es "valueNumber" = Option.none)
    (h3 : lookupKey es "valueDate" = Option.none)
    (h4 : lookupKey es "valueObject" = Option.none)
    (h5 : lookupKey es "valueArray" = Option.none) :
    serializeField (PyVal.dict es) = Except.ok PyVal.none := by
  simp only [serializeField, h1, h2, h3]
  split
  · next m2 e =>
    rw [h4] at e
    simp at e
  · next v2 e e2 =>
    rw [h4] at e2
    simp at e2
  · next e =>
    split <;> simp_all


theorem serializeMembers_eq_mapM (m : List (String × PyVal)) :
    serializeMembers m =
      m.mapM fun kv => Except.map (fun r => (kv.1, r)) (serializeField kv.2) := by
  induction m with
  | nil =>
    simp only [serializeMembers]
    rfl
  | cons kv rest ih =>
    obtain ⟨k, v⟩ := kv
    rw [serializeMembers, List.mapM_cons, ← ih]
    cases serializeField v with
    | error e => simp [Except.map, Except.bind, Bind.bind]
    | ok r =>
      cases serializeMembers rest with
      | error e => simp [Except.map, Except.bind, Bind.bind]
      | ok rs => simp [Except.map, Except.bind, Bind.bind, Pure.pure, Except.pure]

theorem serializeItems_eq_mapM (xs : List PyVal) :
    serializeItems xs = xs.mapM serializeField := by
  induction xs with
  | nil =>
    simp only [serializeItems]
    rfl
  | cons v rest ih =>
    rw [serializeItems, List.mapM_cons, ← ih]
    cases serializeField v with
    | error e => simp [Except.bind, Bind.bind]
    | ok r =>
      cases serializeItems rest with
      | error e => simp [Except.bind, Bind.bind]
      | ok rs => simp [Except.bind, Bind.bind, Pure.pure, Except.pure]

theorem wfEntry_of_lookup {es : List (String × PyVal)} {key : String} {v : PyVal}
    (h : isWellFormedEntries es = true) (hl : lookupKey es key = some v) :
    wfEntry key v = true := by
  induction es with
  | nil => simp [lookupKey] at hl
  | cons kv rest ih =>
    obtain ⟨k, w⟩ := kv
    rw [isWellFormedEntries, Bool.and_eq_true] at h
    by_cases hk : k = key
    · subst hk
      simp [lookupKey] at hl
      subst hl
      exact h.1
    · simp [lookupKey, hk] at hl
      exact ih h.2 hl

theorem typedEntry_of_lookup {es : List (String × PyVal)} {key : String} {v : PyVal}
    (h : isTypedEntries es = true) (hl : lookupKey es key = some v) :
    typedEntry key v = true := by
  induction es with
  | nil => simp [lookupKey] at hl
  | cons kv rest ih =>
    obtain ⟨k, w⟩ := kv
    rw [isTypedEntries, Bool.and_eq_true] at h
    by_cases hk : k = key
    · subst hk
      simp [lookupKey] at hl
      subst hl
      exact h.1
    · simp [lookupKey, hk] at hl
      exact ih h.2 hl

theorem isWellFormedMembers_mem {m : List (String × PyVal)}
    (h : isWellFormedMembers m = true) {kv : String × PyVal} (hkv : kv ∈ m) :
    isWellFormedField kv.2 = true := by
  induction m with
  | nil => simp at hkv
  | cons kv0 rest ih =>
    obtain ⟨k, v⟩ := kv0
    rw [isWellFormedMembers, Bool.and_eq_true] at h
    rcases List.mem_cons.mp hkv with rfl | h2
    · exact h.1
    · exact ih h.2 h2

theorem isWellFormedList_mem {xs : List PyVal}
    (h : isWellFormedList xs = true) {v : PyVal} (hv : v ∈ xs) :
    isWellFormedField v = true := by
  induction xs with
  | nil => simp at hv
  | cons w rest ih =>
    rw [isWellFormedList, Bool.and_eq_true] at h
    rcases List.mem_cons.mp hv with rfl | h2
    · exact h.1
    · exact ih h.2 h2

theorem isTypedMembers_mem {m : List (String × PyVal)}
    (h : isTypedMembers m = true) {kv : String × PyVal} (hkv : kv ∈ m) :
    isTypedField kv.2 = true := by
  induction m with
  | nil => simp at hkv
  | cons kv0 rest ih =>
    obtain ⟨k, v⟩ := kv0
    rw [isTypedMembers, Bool.and_eq_true] at h
    rcases List.mem_cons.mp hkv with rfl | h2
    · exact h.1
    · exact ih h.2 h2

theorem isTypedList_mem {xs : List PyVal}
    (h : isTypedList xs = true) {v : PyVal} (hv : v ∈ xs) :
    isTypedField v = true := by
  induction xs with
  | nil => simp at hv
  | cons w rest ih =>
    rw [isTypedList, Bool.and_eq_true] at h
    rcases List.mem_cons.mp hv with rfl | h2
    · exact h.1
    · exact ih h.2 h2

theorem serializeMembers_ok_of (m : List (String × PyVal))
    (H : ∀ kv ∈ m, ∃ r, serializeField kv.2 = Except.ok r) :
    ∃ rs, serializeMembers m = Except.ok rs := by
  induction m with
  | nil => exact ⟨[], by simp [serializeMembers]⟩
  | cons kv rest ih =>
    obtain ⟨k, v⟩ := kv
    obtain ⟨r, hr⟩ := H (k, v) (List.mem_cons_self _ _)
    obtain ⟨rs, hrs⟩ := ih fun kv2 hkv2 => H kv2 (List.mem_cons_of_mem _ hkv2)
    exact ⟨(k, r) :: rs, by simp [serializeMembers, hr, hrs, Except.bind, Bind.bind]⟩

theorem serializeItems_ok_of (xs : List PyVal)
    (H : ∀ v ∈ xs, ∃ r, serializeField v = Except.ok r) :
    ∃ rs, serializeItems xs = Except.ok rs := by
  induction xs with
  | nil => exact ⟨[], by simp [serializeItems]⟩
  | cons v rest ih =>
    obtain ⟨r, hr⟩ := H v (List.mem_cons_self _ _)
    obtain ⟨rs, hrs⟩ := ih fun w hw => H w (List.mem_cons_of_mem _ hw)
    exact ⟨r :: rs, by simp [serializeItems, hr, hrs, Except.bind, Bind.bind]⟩

theorem serializeMembers_canon_of (m : List (String × PyVal))
    (H : ∀ kv ∈ m, ∃ r, serializeField kv.2 = Except.ok r ∧ isCanonical r = true) :
    ∃ rs, serializeMembers m = Except.ok rs ∧ isCanonicalEntries rs = true := by
  induction m with
  | nil => exact ⟨[], by simp [serializeMembers, isCanonicalEntries]⟩
  | cons kv rest ih =>
    obtain ⟨k, v⟩ := kv
    obtain ⟨r, hr, hc⟩ := H (k, v) (List.mem_cons_self _ _)
    obtain ⟨rs, hrs, hcs⟩ := ih fun kv2 hkv2 => H kv2 (List.mem_cons_of_mem _ hkv2)
    refine ⟨(k, r) :: rs, by simp [serializeMembers, hr, hrs, Except.bind, Bind.bind], ?_⟩
    rw [isCanonicalEntries, Bool.and_eq_true]
    exact ⟨hc, hcs⟩

theorem serializeItems_canon_of (xs : List PyVal)
    (H : ∀ v ∈ xs, ∃ r, serializeField v = Except.ok r ∧ isCanonical r = true) :
    ∃ rs, serializeItems xs = Except.ok rs ∧ isCanonicalList rs = true := by
  induction xs with
  | nil => exact ⟨[], by simp [serializeItems, isCanonicalList]⟩
  | cons v rest ih =>
    obtain ⟨r, hr, hc⟩ := H v (List.mem_cons_self _ _)
    obtain ⟨rs, hrs, hcs⟩ := ih fun w hw => H w (List.mem_cons_of_mem _ hw)
    refine ⟨r :: rs, by simp [serializeItems, hr, hrs, Except.bind, Bind.bind], ?_⟩
    rw [isCanonicalList, Bool.and_eq_true]
    exact ⟨hc, hcs⟩

theorem firstNonNone_notBool {l : List PyVal}
    (h : ∀ x ∈ l, notBool x = true) : notBool (firstNonNone l) = true := by
  induction l with
  | nil => simp [firstNonNone, notBool]
  | cons x rest ih =>
    cases x with
    | none => exact ih fun y hy => h y (List.mem_cons_of_mem _ hy)
    | bool b => exact h (PyVal.bool b) (List.mem_cons_self _ _)
    | num n => simp [firstNonNone, notBool]
    | str s => simp [firstNonNone, notBool]
    | list xs => simp [firstNonNone, notBool]
    | dict es => simp [firstNonNone, notBool]
    | obj a b c d => simp [firstNonNone, notBool]

theorem isCanonical_coerceVal {v : PyVal} (h : notBool v = true) :
    isCanonical (coerceVal v) = true := by
  cases v <;> simp_all [coerceVal, isCanonical, notBool]

theorem unwrap_eq_self {v : PyVal} (h : isEnvelope v = false) : unwrap v = v := by
  cases v with
  | dict es =>
    rw [isEnvelope] at h
    rcases h1 : lookupKey es "data" with _ | d
    · simp [unwrap, h1]
    · rcases h2 : lookupKey es "status" with _ | s
      · simp [unwrap, h1, h2]
      · rw [h1, h2] at h
        simp at h
  | none => rfl
  | bool b => rfl
  | num n => rfl
  | str s => rfl
  | list xs => rfl
  | obj a b c d => rfl

/-- A well-formed field normalizes without raising an exception. -/
theorem wellFormed_serialize_ok (v : PyVal) (h : isWellFormedField v = true) :
    ∃ r, serializeField v = Except.ok r := by
  cases v with
  | none => exact ⟨PyVal.none, by simp [serializeField]⟩
  | bool b => exact ⟨PyVal.none, by simp [serializeField]⟩
  | num n => exact ⟨PyVal.none, by simp [serializeField]⟩
  | str s => exact ⟨PyVal.none, by simp [serializeField]⟩
  | list xs => exact ⟨PyVal.none, by simp [serializeField]⟩
  | obj a b c d => exact ⟨coerceVal (firstNonNone [a, b, c, d]), by simp [serializeField]⟩
  | dict es =>
    rw [isWellFormedField] at h
    cases h1 : lookupKey es "valueString" with
    | some v1 => exact ⟨v1, serializeField_dict_hasString h1⟩
    | none =>
    cases h2 : lookupKey es "valueNumber" with
    | some v2 => exact ⟨v2, serializeField_dict_hasNumber h1 h2⟩
    | none =>
    cases h3 : lookupKey es "valueDate" with
    | some v3 => exact ⟨v3, serializeField_dict_hasDate h1 h2 h3⟩
    | none =>
    cases h4 : lookupKey es "valueObject" with
    | some v4 =>
      have hw := wfEntry_of_lookup h h4
      cases v4 with
      | dict m =>
        have hm : isWellFormedMembers m = true := by simpa [wfEntry] using hw
        obtain ⟨rs, hrs⟩ := serializeMembers_ok_of m fun kv hkv =>
          wellFormed_serialize_ok kv.2 (isWellFormedMembers_mem hm hkv)
        exact ⟨PyVal.dict rs, by rw [serializeField_dict_hasObject h1 h2 h3 h4, hrs]; rfl⟩
      | none => simp [wfEntry] at hw
      | bool b => simp [wfEntry] at hw
      | num n => simp [wfEntry] at hw
      | str s => simp [wfEntry] at hw
      | list xs => simp [wfEntry] at hw
      | obj a b c d => simp [wfEntry] at hw
    | none =>
    cases h5 : lookupKey es "valueArray" with
    | some v5 =>
      have hw := wfEntry_of_lookup h h5
      cases v5 with
      | list xs =>
        have hxs : isWellFormedList xs = true := by simpa [wfEntry] using hw
        obtain ⟨rs, hrs⟩ := serializeItems_ok_of xs fun w hwm =>
          wellFormed_serialize_ok w (isWellFormedList_mem hxs hwm)
        exact ⟨PyVal.list rs, by rw [serializeField_dict_hasArray h1 h2 h3 h4 h5, hrs]; rfl⟩
      | none => simp [wfEntry] at hw
      | bool b => simp [wfEntry] at hw
      | num n => simp [wfEntry] at hw
      | str s => simp [wfEntry] at hw
      | dict m => simp [wfEntry] at hw
      | obj a b c d => simp [wfEntry] at hw
    | none => exact ⟨PyVal.none, serializeField_dict_noValueKey h1 h2 h3 h4 h5⟩
termination_by sizeOf v
decreasing_by
  all_goals subst_vars
  all_goals
    first
      | (have a1 := List.sizeOf_lt_of_mem hkv
         have a2 := lookupKey_sizeOf_lt h4
         cases kv
         simp at a1 a2 ⊢
         omega)
      | (have a1 := List.sizeOf_lt_of_mem hwm
         have a2 := lookupKey_sizeOf_lt h5
         simp at a1 a2 ⊢
         omega)

/-- A well-typed field normalizes without raising, to a canonical value. -/
theorem typedField_serialize_canonical (v : PyVal) (h : isTypedField v = true) :
    ∃ r, serializeField v = Except.ok r ∧ isCanonical r = true := by
  cases v with
  | none => exact ⟨PyVal.none, by simp [serializeField], by simp [isCanonical]⟩
  | bool b => exact ⟨PyVal.none, by simp [serializeField], by simp [isCanonical]⟩
  | num n => exact ⟨PyVal.none, by simp [serializeField], by simp [isCanonical]⟩
  | str s => exact ⟨PyVal.none, by simp [serializeField], by simp [isCanonical]⟩
  | list xs => exact ⟨PyVal.none, by simp [serializeField], by simp [isCanonical]⟩
  | obj a b c d =>
    simp only [isTypedField, Bool.and_eq_true] at h
    obtain ⟨⟨⟨ha, hb⟩, hc⟩, hd⟩ := h
    refine ⟨coerceVal (firstNonNone [a, b, c, d]), by simp [serializeField],
      isCanonical_coerceVal (firstNonNone_notBool ?_)⟩
    intro x hx
    simp at hx
    rcases hx with rfl | rfl | rfl | rfl
    exacts [ha, hb, hc, hd]
  | dict es =>
    rw [isTypedField] at h
    cases h1 : lookupKey es "valueString" with
    | some v1 =>
      have hw := typedEntry_of_lookup h h1
      cases v1 with
      | str s => exact ⟨PyVal.str s, serializeField_dict_hasString h1, by simp [isCanonical]⟩
      | none => simp [typedEntry] at hw
      | bool b => simp [typedEntry] at hw
      | num n => simp [typedEntry] at hw
      | list xs => simp [typedEntry] at hw
      | dict m => simp [typedEntry] at hw
      | obj a b c d => simp [typedEntry] at hw
    | none =>
    cases h2 : lookupKey es "valueNumber" with
    | some v2 =>
      have hw := typedEntry_of_lookup h h2
      cases v2 with
      | num n => exact ⟨PyVal.num n, serializeField_dict_hasNumber h1 h2, by simp [isCanonical]⟩
      | none => simp [typedEntry] at hw
      | bool b => simp [typedEntry] at hw
      | str s => simp [typedEntry] at hw
      | list xs => simp [typedEntry] at hw
      | dict m => simp [typedEntry] at hw
      | obj a b c d => simp [typedEntry] at hw
    | none =>
    cases h3 : lookupKey es "valueDate" with
    | some v3 =>
      have hw := typedEntry_of_lookup h h3
      cases v3 with
      | str s => exact ⟨PyVal.str s, serializeField_dict_hasDate h1 h2 h3, by simp [isCanonical]⟩
      | none => simp [typedEntry] at hw
      | bool b => simp [typedEntry] at hw
      | num n => simp [typedEntry] at hw
      | list xs => simp [typedEntry] at hw
      | dict m => simp [typedEntry] at hw
      | obj a b c d => simp [typedEntry] at hw
    | none =>
    cases h4 : lookupKey es "valueObject" with
    | some v4 =>
      have hw := typedEntry_of_lookup h h4
      cases v4 with
      | dict m =>
        have hm : isTypedMembers m = true := by simpa [typedEntry] using hw
        obtain ⟨rs, hrs, hcs⟩ := serializeMembers_canon_of m fun kv hkv =>
          typedField_serialize_canonical kv.2 (isTypedMembers_mem hm hkv)
        refine ⟨PyVal.dict rs, by rw [serializeField_dict_hasObject h1 h2 h3 h4, hrs]; rfl, ?_⟩
        rw [isCanonical]
        exact hcs
      | none => simp [typedEntry] at hw
      | bool b => simp [typedEntry] at hw
      | num n => simp [typedEntry] at hw
      | str s => simp [typedEntry] at hw
      | list xs => simp [typedEntry] at hw
      | obj a b c d => simp [typedEntry] at hw
    | none =>
    cases h5 : lookupKey es "valueArray" with
    | some v5 =>
      have hw := typedEntry_of_lookup h h5
      cases v5 with
      | list xs =>
        have hxs : isTypedList xs = true := by simpa [typedEntry] using hw
        obtain ⟨rs, hrs, hcs⟩ := serializeItems_canon_of xs fun w hwm =>
          typedField_serialize_canonical w (isTypedList_mem hxs hwm)
        refine ⟨PyVal.list rs, by rw [serializeField_dict_hasArray h1 h2 h3 h4 h5, hrs]; rfl, ?_⟩
        rw [isCanonical]
        exact hcs
      | none => simp [typedEntry] at hw
      | bool b => simp [typedEntry] at hw
      | num n => simp [typedEntry] at hw
      | str s => simp [typedEntry] at hw
      | dict m => simp [typedEntry] at hw
      | obj a b c d => simp [typedEntry] at hw
    | none =>
      exact ⟨PyVal.none, serializeField_dict_noValueKey h1 h2 h3 h4 h5, by simp [isCanonical]⟩
termination_by sizeOf v
decreasing_by
  all_goals subst_vars
  all_goals
    first
      | (have a1 := List.sizeOf_lt_of_mem hkv
         have a2 := lookupKey_sizeOf_lt h4
         cases kv
         simp at a1 a2 ⊢
         omega)
      | (have a1 := List.sizeOf_lt_of_mem hwm
         have a2 := lookupKey_sizeOf_lt h5
         simp at a1 a2 ⊢
         omega)

/-! ### Claims -/

/-- C1 (counterexample): the normalizer's output is not always limited to the
canonical shapes.  A dict field whose `valueString` key stores a boolean is
returned as that boolean (the primitive-key probe returns the stored value
as-is), and the attribute fallback explicitly passes booleans through
(`isinstance(val, (str, int, float, bool))`); a boolean is not a canonical
JSON value. -/
theorem serializeField_returns_boolean :
    serializeField (PyVal.dict [("valueString", PyVal.bool true)]) = Except.ok (PyVal.bool true) ∧
    serializeField (PyVal.obj (PyVal.bool true) PyVal.none PyVal.none PyVal.none) =
      Except.ok (PyVal.bool true) ∧
    isCanonical (PyVal.bool true) = false := by
  refine ⟨serializeField_dict_hasString rfl, ?_, ?_⟩
  · simp [serializeField, firstNonNone, coerceVal]
  · simp [isCanonical]

/-- C1 (amended): for every well-typed input field — one whose primitive
value keys hold values of the advertised primitive types and whose fallback
attributes are not booleans — the normalizer returns a canonical JSON value:
null, a string, a number, a string-keyed mapping of canonical values, or an
ordered sequence of canonical values, and never a boolean or a service
wrapper object. -/
theorem serializeField_canonical_on_typed (v : PyVal) (h : isTypedField v = true) :
    ∃ r, serializeField v = Except.ok r ∧ isCanonical r = true :=
  typedField_serialize_canonical v h

/-- Witness for C1 (amended) at a concrete well-typed field. -/
theorem serializeField_canonical_on_typed_witness :
    isTypedField (PyVal.dict [("valueString", PyVal.str "INV-42")]) = true ∧
    ∃ r, serializeField (PyVal.dict [("valueString", PyVal.str "INV-42")]) = Except.ok r ∧
      isCanonical r = true :=
  ⟨by simp [isTypedField, isTypedEntries, typedEntry],
   serializeField_canonical_on_typed _ (by simp [isTypedField, isTypedEntries, typedEntry])⟩

/-- C2 (counterexample): the envelope unwrap is not idempotent on every
mapping.  For an envelope whose `data` value is itself envelope-shaped,
the first unwrap returns the inner envelope and the second unwrap strips it
again. -/
theorem unwrap_not_idempotent :
    unwrap (unwrap (PyVal.dict
        [("status", PyVal.str "success"),
         ("data", PyVal.dict [("status", PyVal.str "success"), ("data", PyVal.num 3)])])) ≠
      unwrap (PyVal.dict
        [("status", PyVal.str "success"),
         ("data", PyVal.dict [("status", PyVal.str "success"), ("data", PyVal.num 3)])]) := by
  intro h
  exact PyVal.noConfusion h

/-- C2 (amended): the envelope unwrap is idempotent on every input whose
unwrapped result is not itself an envelope (a mapping with both `status` and
`data` keys); in particular, passing an already-unwrapped document is a
no-op. -/
theorem unwrap_idempotent_unless_nested_envelope (x : PyVal)
    (h : isEnvelope (unwrap x) = false) : unwrap (unwrap x) = unwrap x :=
  unwrap_eq_self h

/-- Witness for C2 (amended) at a concrete pipeline-shaped envelope. -/
theorem unwrap_idempotent_witness :
    isEnvelope (unwrap (PyVal.dict
        [("status", PyVal.str "success"),
         ("data", PyVal.dict [("InvoiceId", PyVal.str "42")])])) = false ∧
    unwrap (unwrap (PyVal.dict
        [("status", PyVal.str "success"),
         ("data", PyVal.dict [("InvoiceId", PyVal.str "42")])])) =
      unwrap (PyVal.dict
        [("status", PyVal.str "success"),
         ("data", PyVal.dict [("InvoiceId", PyVal.str "42")])]) :=
  ⟨rfl, unwrap_idempotent_unless_nested_envelope _ rfl⟩

/-- C3: for a dict-like field the normalizer probes `valueString`,
`valueNumber`, `valueDate` in that fixed order and returns the value stored
under the first present key unchanged, so a string value wins over a number
value, which wins over a date value. -/
theorem serializeField_primitive_priority (es : List (String × PyVal)) (v : PyVal) :
    (lookupKey es "valueString" = some v → serializeField (PyVal.dict es) = Except.ok v) ∧
    (lookupKey es "valueString" = Option.none → lookupKey es "valueNumber" = some v →
      serializeField (PyVal.dict es) = Except.ok v) ∧
    (lookupKey es "valueString" = Option.none → lookupKey es "valueNumber" = Option.none →
      lookupKey es "valueDate" = some v → serializeField (PyVal.dict es) = Except.ok v) :=
  ⟨fun h1 => serializeField_dict_hasString h1,
   fun h1 h2 => serializeField_dict_hasNumber h1 h2,
   fun h1 h2 h3 => serializeField_dict_hasDate h1 h2 h3⟩

/-- Witness for C3 at concrete fields with several value keys populated. -/
theorem serializeField_primitive_priority_witness :
    serializeField (PyVal.dict
        [("valueDate", PyVal.str "2024-01-01"), ("valueNumber", PyVal.num 7),
         ("valueString", PyVal.str "A")]) = Except.ok (PyVal.str "A") ∧
    serializeField (PyVal.dict
        [("valueDate", PyVal.str "2024-01-01"), ("valueNumber", PyVal.num 7)]) =
      Except.ok (PyVal.num 7) ∧
    serializeField (PyVal.dict [("valueDate", PyVal.str "2024-01-01")]) =
      Except.ok (PyVal.str "2024-01-01") :=
  ⟨(serializeField_primitive_priority _ _).1 rfl,
   (serializeField_primitive_priority _ _).2.1 rfl rfl,
   (serializeField_primitive_priority _ _).2.2 rfl rfl rfl⟩

/-- C4: for a dict-like field carrying an object value (a `valueObject` key
holding a mapping, and none of the primitive value keys), the normalizer
returns the mapping obtained by applying the normalizer to every member
value, with the member keys preserved. -/
theorem serializeField_object_recurses (es m : List (String × PyVal))
    (h1 : lookupKey es "valueString" = Option.none)
    (h2 : lookupKey es "valueNumber" = Option.none)
    (h3 : lookupKey es "valueDate" = Option.none)
    (h4 : lookupKey es "valueObject" = some (PyVal.dict m)) :
    serializeField (PyVal.dict es) =
      Except.map PyVal.dict
        (m.mapM fun kv => Except.map (fun r => (kv.1, r)) (serializeField kv.2)) := by
  rw [serializeField_dict_hasObject h1 h2 h3 h4, serializeMembers_eq_mapM]

/-- Witness for C4 at a concrete object-valued field. -/
theorem serializeField_object_recurses_witness :
    serializeField (PyVal.dict
        [("valueObject", PyVal.dict
          [("CurrencyCode", PyVal.dict [("valueString", PyVal.str "USD")])])]) =
      Except.map PyVal.dict
        (([("CurrencyCode", PyVal.dict [("valueString", PyVal.str "USD")])] :
            List (String × PyVal)).mapM
          fun kv => Except.map (fun r => (kv.1, r)) (serializeField kv.2)) :=
  serializeField_object_recurses _ _ rfl rfl rfl rfl

/-- C5: for a dict-like field carrying an array value (a `valueArray` key
holding a sequence, and none of the primitive or object value keys), the
normalizer returns the ordered sequence obtained by applying the normalizer
to every item, order preserved. -/
theorem serializeField_array_recurses (es : List (String × PyVal)) (xs : List PyVal)
    (h1 : lookupKey es "valueString" = Option.none)
    (h2 : lookupKey es "valueNumber" = Option.none)
    (h3 : lookupKey es "valueDate" = Option.none)
    (h4 : lookupKey es "valueObject" = Option.none)
    (h5 : lookupKey es "valueArray" = some (PyVal.list xs)) :
    serializeField (PyVal.dict es) = Except.map PyVal.list (xs.mapM serializeField) := by
  rw [serializeField_dict_hasArray h1 h2 h3 h4 h5, serializeItems_eq_mapM]

/-- Witness for C5 at a concrete array-valued field. -/
theorem serializeField_array_recurses_witness :
    serializeField (PyVal.dict
        [("valueArray", PyVal.list
          [PyVal.dict [("valueNumber", PyVal.num 1)],
           PyVal.dict [("valueNumber", PyVal.num 2)]])]) =
      Except.map PyVal.list
        (([PyVal.dict [("valueNumber", PyVal.num 1)],
           PyVal.dict [("valueNumber", PyVal.num 2)]] : List PyVal).mapM serializeField) :=
  serializeField_array_recurses _ _ rfl rfl rfl rfl rfl

/-- C6: the normalizer is total on well-formed fields — it returns a value
and never raises, including for partially-populated or malformed variants
(extra keys, several value keys at once) — and it returns null for a null
input, for a dict field with no recognized value key (the Empty variant),
and for a typed field object with no populated value attribute. -/
theorem serializeField_total_and_null_defaults (v : PyVal) (es : List (String × PyVal))
    (hwf : isWellFormedField v = true)
    (h1 : lookupKey es "valueString" = Option.none)
    (h2 : lookupKey es "valueNumber" = Option.none)
    (h3 : lookupKey es "valueDate" = Option.none)
    (h4 : lookupKey es "valueObject" = Option.none)
    (h5 : lookupKey es "valueArray" = Option.none) :
    (∃ r, serializeField v = Except.ok r) ∧
    serializeField PyVal.none = Except.ok PyVal.none ∧
    serializeField (PyVal.dict es) = Except.ok PyVal.none ∧
    serializeField (PyVal.obj PyVal.none PyVal.none PyVal.none PyVal.none) =
      Except.ok PyVal.none :=
  ⟨wellFormed_serialize_ok v hwf, by simp [serializeField],
   serializeField_dict_noValueKey h1 h2 h3 h4 h5,
   by simp [serializeField, firstNonNone, coerceVal]⟩

/-- Witness for C6 at a concrete malformed (two value keys) nested field and
a concrete field with no recognized value key. -/
theorem serializeField_total_and_null_defaults_witness :
    isWellFormedField (PyVal.dict
        [("valueString", PyVal.bool true),
         ("valueObject", PyVal.dict
           [("A", PyVal.dict [("valueArray", PyVal.list [PyVal.dict []])])])]) = true ∧
    ((∃ r, serializeField (PyVal.dict
        [("valueString", PyVal.bool true),
         ("valueObject", PyVal.dict
           [("A", PyVal.dict [("valueArray", PyVal.list [PyVal.dict []])])])]) = Except.ok r) ∧
      serializeField PyVal.none = Except.ok PyVal.none ∧
      serializeField (PyVal.dict [("type", PyVal.str "string"), ("confidence", PyVal.num 1)]) =
        Except.ok PyVal.none ∧
      serializeField (PyVal.obj PyVal.none PyVal.none PyVal.none PyVal.none) =
        Except.ok PyVal.none) :=
  ⟨by simp [isWellFormedField, isWellFormedEntries, wfEntry, isWellFormedMembers,
        isWellFormedList],
   serializeField_total_and_null_defaults _ _
     (by simp [isWellFormedField, isWellFormedEntries, wfEntry, isWellFormedMembers,
           isWellFormedList])
     rfl rfl rfl rfl rfl⟩

/-- C7: the derived currency equals the value at the nested
`TotalAmount.CurrencyCode` path when `TotalAmount` is present and is a
mapping, and is the empty string when `TotalAmount` is absent, when it is
not a mapping, or when `CurrencyCode` is absent from it; the derivation is a
total function (no error is raised). -/
theorem deriveCurrency_from_total_amount (d m : List (String × PyVal)) (c v : PyVal) :
    (lookupKey d "TotalAmount" = some (PyVal.dict m) → lookupKey m "CurrencyCode" = some c →
      deriveCurrency d = c) ∧
    (lookupKey d "TotalAmount" = some (PyVal.dict m) →
      lookupKey m "CurrencyCode" = Option.none → deriveCurrency d = PyVal.str "") ∧
    (lookupKey d "TotalAmount" = Option.none → deriveCurrency d = PyVal.str "") ∧
    (lookupKey d "TotalAmount" = some v → isDict v = false → deriveCurrency d = PyVal.str "") := by
  refine ⟨fun h1 h2 => ?_, fun h1 h2 => ?_, fun h1 => ?_, fun h1 h2 => ?_⟩
  · simp [deriveCurrency, h1, h2]
  · simp [deriveCurrency, h1, h2]
  · simp [deriveCurrency, h1]
  · cases v <;> simp_all [deriveCurrency, isDict]

/-- Witness for C7 at concrete documents. -/
theorem deriveCurrency_from_total_amount_witness :
    deriveCurrency [("TotalAmount",
        PyVal.dict [("Amount", PyVal.num 100), ("CurrencyCode", PyVal.str "USD")])] =
      PyVal.str "USD" ∧
    deriveCurrency [("TotalAmount", PyVal.dict [("Amount", PyVal.num 100)])] = PyVal.str "" ∧
    deriveCurrency [("InvoiceId", PyVal.str "42")] = PyVal.str "" ∧
    deriveCurrency [("TotalAmount", PyVal.str "100 USD")] = PyVal.str "" :=
  ⟨(deriveCurrency_from_total_amount _
      [("Amount", PyVal.num 100), ("CurrencyCode", PyVal.str "USD")]
      (PyVal.str "USD") PyVal.none).1 rfl rfl,
   (deriveCurrency_from_total_amount _ [("Amount", PyVal.num 100)]
      PyVal.none PyVal.none).2.1 rfl rfl,
   (deriveCurrency_from_total_amount [("InvoiceId", PyVal.str "42")] []
      PyVal.none PyVal.none).2.2.1 rfl,
   (deriveCurrency_from_total_amount _ [] PyVal.none (PyVal.str "100 USD")).2.2.2 rfl rfl⟩

/-- C8: the output filename is `invoice_<identifier>.pdf` where the
identifier is the document's `InvoiceId` value (interpolated through Python
`str()`), and when the key is absent the default token `"invoice"` is used,
yielding `invoice_invoice.pdf`. -/
theorem deriveFilename_from_invoice_id (d : List (String × PyVal)) (v : PyVal) :
    (lookupKey d "InvoiceId" = some v →
      deriveFilename d = "invoice_" ++ pyStr v ++ ".pdf") ∧
    (lookupKey d "InvoiceId" = Option.none → deriveFilename d = "invoice_invoice.pdf") := by
  constructor
  · intro h
    simp [deriveFilename, h]
  · intro h
    simp [deriveFilename, h, pyStr]

/-- Witness for C8 at concrete documents. -/
theorem deriveFilename_from_invoice_id_witness :
    deriveFilename [("InvoiceId", PyVal.str "INV-42")] = "invoice_INV-42.pdf" ∧
    deriveFilename [("CustomerName", PyVal.str "Ada")] = "invoice_invoice.pdf" :=
  ⟨(deriveFilename_from_invoice_id _ (PyVal.str "INV-42")).1 rfl,
   (deriveFilename_from_invoice_id _ (PyVal.str "")).2 rfl⟩

/-- C9: a failure reported by the extraction collaborator
(`HttpResponseError`) is surfaced with the upstream status code it carries;
any other failure of the extraction step is surfaced with status 500. -/
theorem analyze_invoice_error_status (s : Nat) (m1 m2 : String) :
    analyzeErrorStatus (AnalyzeFailure.httpResponseError s m1) = s ∧
    analyzeErrorStatus (AnalyzeFailure.genericError m2) = 500 :=
  ⟨rfl, rfl⟩

/-- C10: the filename default applies only when the `InvoiceId` key is
absent: for a document in which `InvoiceId` is present with a null value,
the stringified null (`"None"`) is used in the filename, not the default
token, so the filename is `invoice_None.pdf` and not
`invoice_invoice.pdf`. -/
theorem deriveFilename_null_not_default (d : List (String × PyVal))
    (h : lookupKey d "InvoiceId" = some PyVal.none) :
    deriveFilename d = "invoice_None.pdf" ∧ deriveFilename d ≠ "invoice_invoice.pdf" := by
  have h1 : deriveFilename d = "invoice_None.pdf" := by simp [deriveFilename, h, pyStr]
  exact ⟨h1, by rw [h1]; decide⟩

/-- Witness for C10 at a concrete document with a null `InvoiceId`. -/
theorem deriveFilename_null_not_default_witness :
    deriveFilename [("InvoiceId", PyVal.none)] = "invoice_None.pdf" ∧
    deriveFilename [("InvoiceId", PyVal.none)] ≠ "invoice_invoice.pdf" :=
  deriveFilename_null_not_default _ rfl

end InvoiceGen
